import Mathlib

set_option maxHeartbeats 1000000

/-!
Shallow embedding of `src/echonest/audio.py` (the echonest remix core).

Conventions of the embedding:
* Python floats (timecodes, sample rates) are modelled as rationals `ℚ`.
* numpy int16 sample arrays are modelled as `List (List ℤ)` (rows by
  channels) together with an explicit column count `cols`, mirroring the
  second component of the ndarray shape (an ndarray is rectangular by
  construction, so the shape field is authoritative for broadcasting
  checks).  int16 wrap-around is applied by the arithmetic helpers.
* Python exceptions are modelled with `Except String`; a function that can
  fall off the end returning `None` maps that outcome to an error as well.
* numpy slice assignment `dst[a:b] = src` requires the row counts to agree
  exactly, except that numpy broadcasts a single-row source over the
  destination slice; this broadcast is modelled in `append`, where a full
  buffer plus a one-row source reaches it.  For the in-place `+=` of `mix`
  the embedding keeps the exact-shape check only: every statement proved
  about `mix` lives in a region (equal lengths, or a mismatch with at least
  two source rows) where the broadcast cannot fire.  The column-dimension
  length-one broadcast is outside the model — all buffers here carry
  matching fixed channel counts.
-/

/-- Python `int()` applied to a rational: truncation toward zero. -/
def pyInt (q : ℚ) : ℤ := if 0 ≤ q then ⌊q⌋ else -⌊-q⌋

/-- Resolution of one bound of a Python slice `l[a:b]` against a list of
length `n`: negative indices count from the end, and the result is clamped
into `[0, n]`. -/
def pyBound (n : ℕ) (i : ℤ) : ℕ :=
  if i < 0 then (max (i + n) 0).toNat else min i.toNat n

/-- Python list slicing `l[a:b]` (step 1). -/
def pySlice {α : Type} (l : List α) (a b : ℤ) : List α :=
  (l.take (pyBound l.length b)).drop (pyBound l.length a)

/-- Python subscript `l[i]` with an integer index: negative indices wrap
from the end, out-of-range indices raise `IndexError` (here: `none`). -/
def pyGetItem {α : Type} (l : List α) (i : ℤ) : Option α :=
  if i < 0 then
    if 0 ≤ i + l.length then l.get? (i + l.length).toNat else none
  else l.get? i.toNat

/-- Wrap an integer into the int16 range `[-2^15, 2^15)`, as numpy does on
overflow of an int16 array element. -/
def i16 (z : ℤ) : ℤ := (z + 2 ^ 15) % 2 ^ 16 - 2 ^ 15

/-- One sample of `data *= r` on an int16 ndarray: multiply as a float,
truncate toward zero on the cast back to int16, wrap. -/
def scaleSample (r : ℚ) (z : ℤ) : ℤ := i16 (pyInt (z * r))

/-- One row of `data *= r`. -/
def scaleRow (r : ℚ) (row : List ℤ) : List ℤ := row.map (scaleSample r)

/-- Elementwise `+=` of two rows of equal length (int16 wrap). -/
def addRows (x y : List ℤ) : List ℤ := List.zipWith (fun u v => i16 (u + v)) x y

/-- `AudioQuantum.__init__`: an atomic timed annotation.  `kind` and
`confidence` default to Python `None`, hence the `Option`s. -/
structure AudioQuantum where
  start : ℚ
  duration : ℚ
  kind : Option String
  confidence : Option ℚ
deriving DecidableEq, Inhabited

/-- The state of an `AudioData` object: the backing ndarray `data`
(rows by channels, `cols` = second shape component), the logical length
`endindex`, the sample rate and the `numChannels` attribute.  Objects whose
`data` attribute is Python `None` are outside this model. -/
structure AudioData where
  data : List (List ℤ)
  cols : ℕ
  endindex : ℕ
  sampleRate : ℚ
  numChannels : Option ℕ
deriving DecidableEq

/-- `AudioData.__init__(None, ndarray, sampleRate=sr)`: allocates
`zeros(ndarray.shape)`, sets `endindex = len(ndarray)` and copies the rows
in, so the result is an independent copy of `ndarray`.  `numChannels` is
left at its default `None`. -/
def AudioData.fromArray (nd : List (List ℤ)) (c : ℕ) (sr : ℚ) : AudioData :=
  { data := nd, cols := c, endindex := nd.length, sampleRate := sr, numChannels := none }

/-- `AudioData.__init__(shape=(rows, c), sampleRate=sr, numChannels=nc)`:
a zeroed buffer with `endindex = 0`. -/
def AudioData.fromShape (rows c : ℕ) (sr : ℚ) (nc : ℕ) : AudioData :=
  { data := List.replicate rows (List.replicate c 0), cols := c, endindex := 0,
    sampleRate := sr, numChannels := some nc }

/-- `AudioData.getslice` on a slice whose bounds are already integers:
`AudioData(None, self.data[i:j], sampleRate=self.sampleRate)`. -/
def AudioData.getsliceInt (a : AudioData) (i j : ℤ) : AudioData :=
  AudioData.fromArray (pySlice a.data i j) a.cols a.sampleRate

/-- `AudioData.__getitem__` applied to an `AudioQuantum`: the index becomes
`slice(s.start, s.start + s.duration)` with float bounds, and `getslice`
converts each bound via `int(bound * self.sampleRate)`. -/
def AudioData.getItemQuantum (a : AudioData) (s : AudioQuantum) : AudioData :=
  a.getsliceInt (pyInt (s.start * a.sampleRate))
    (pyInt ((s.start + s.duration) * a.sampleRate))

/-- The effect of the numpy assignment `dst[e : e + len(src)] = src` once
the shape check has passed: rows `[e, e + len src)` are replaced. -/
def writeRows (dst : List (List ℤ)) (e : ℕ) (src : List (List ℤ)) : List (List ℤ) :=
  dst.take e ++ src ++ dst.drop (e + src.length)

/-- `AudioData.append(as2)`: `self.data[self.endindex : self.endindex +
len(as2)] = as2.data[0:]` followed by `self.endindex += len(as2)`.  Note
that `len(as2)` is `len(as2.data)`, the allocated row count, not
`as2.endindex`.  The numpy assignment succeeds when the source row count
equals that of the destination slice (clamped by the capacity), or when the
source has exactly one row, which numpy broadcasts over the slice: since the
slice holds at most one row here, the broadcast case is reached precisely
when the slice is empty (`endindex` at capacity), where numpy writes nothing
and `endindex` still advances — past the capacity.  Any other shape
combination raises `ValueError`; the exception aborts the call before any
mutation, so the error case carries no updated buffer. -/
def AudioData.append (a b : AudioData) : Except String AudioData :=
  let L := b.data.length
  let dstLen := min (a.endindex + L) a.data.length - min a.endindex a.data.length
  if dstLen = L ∧ b.cols = a.cols then
    Except.ok { a with data := writeRows a.data a.endindex b.data,
                       endindex := a.endindex + L }
  else if L = 1 ∧ b.cols = a.cols then
    Except.ok { a with endindex := a.endindex + L }
  else Except.error "ValueError: could not broadcast input array"

/-- `getpieces(audioData, segs)`: sums `int(s.duration * sampleRate)` over
the segments, adds the fixed margin of 100000 rows, allocates a zeroed
buffer of that shape with the source column count, and appends the source
slice of every segment in the given order. -/
def getpieces (audioData : AudioData) (segs : List AudioQuantum) :
    Except String AudioData :=
  let dur : ℤ :=
    segs.foldl (fun acc s => acc + pyInt (s.duration * audioData.sampleRate)) 0 + 100000
  if dur < 0 then Except.error "ValueError: negative dimensions are not allowed"
  else
    segs.foldlM (fun acc s => acc.append (audioData.getItemQuantum s))
      (AudioData.fromShape dur.toNat audioData.cols audioData.sampleRate audioData.cols)

/-- The effect of `dst[:k] += src` once the shape check
`len(src) = len(dst[:k])` has passed. -/
def addIntoFirstRows (dst : List (List ℤ)) (k : ℕ) (src : List (List ℤ)) :
    List (List ℤ) :=
  List.zipWith addRows (dst.take k) src ++ dst.drop k

/-- `mix(audioDataA, audioDataB, mix=r)` exactly as implemented: scales
both arrays in place, then branches on the endindex comparison.  The final
branch tests the decayed comparison `audioDataA.endindex ==
audioDataA.endindex`, verbatim from the source.  The result carries the two
mutated buffer states plus a flag that is `true` when the object returned
is `audioDataA` (the function returns one of its inputs, it allocates no
third buffer).  Falling off the end of the Python function would return
`None`; that outcome is mapped to an error. -/
def mix (audioDataA audioDataB : AudioData) (r : ℚ) :
    Except String (AudioData × AudioData × Bool) :=
  let a := { audioDataA with data := audioDataA.data.map (scaleRow r) }
  let b := { audioDataB with data := audioDataB.data.map (scaleRow (1 - r)) }
  if a.endindex > b.endindex then
    if b.data.length = min b.endindex a.data.length ∧ b.cols = a.cols then
      Except.ok ({ a with data := addIntoFirstRows a.data b.endindex b.data }, b, true)
    else Except.error "ValueError: operands could not be broadcast together"
  else if b.endindex > a.endindex then
    if a.data.length = min a.endindex b.data.length ∧ a.cols = b.cols then
      Except.ok (a, { b with data := addIntoFirstRows b.data a.endindex a.data }, false)
    else Except.error "ValueError: operands could not be broadcast together"
  else if a.endindex = a.endindex then
    if b.data.length = a.data.length ∧ b.cols = a.cols then
      Except.ok ({ a with data := List.zipWith addRows a.data b.data }, b, true)
    else Except.error "ValueError: operands could not be broadcast together"
  else Except.error "TypeError: mix fell through and returned None"

/-- The variant of `mix` whose final branch tests the intended three-way
comparison `audioDataA.endindex == audioDataB.endindex` (this definition
follows the spec's words for the repaired comparison; everything else is
identical to `mix`). -/
def mixIntended (audioDataA audioDataB : AudioData) (r : ℚ) :
    Except String (AudioData × AudioData × Bool) :=
  let a := { audioDataA with data := audioDataA.data.map (scaleRow r) }
  let b := { audioDataB with data := audioDataB.data.map (scaleRow (1 - r)) }
  if a.endindex > b.endindex then
    if b.data.length = min b.endindex a.data.length ∧ b.cols = a.cols then
      Except.ok ({ a with data := addIntoFirstRows a.data b.endindex b.data }, b, true)
    else Except.error "ValueError: operands could not be broadcast together"
  else if b.endindex > a.endindex then
    if a.data.length = min a.endindex b.data.length ∧ a.cols = b.cols then
      Except.ok (a, { b with data := addIntoFirstRows b.data a.endindex a.data }, false)
    else Except.error "ValueError: operands could not be broadcast together"
  else if a.endindex = b.endindex then
    if b.data.length = a.data.length ∧ b.cols = a.cols then
      Except.ok ({ a with data := List.zipWith addRows a.data b.data }, b, true)
    else Except.error "ValueError: operands could not be broadcast together"
  else Except.error "TypeError: mix fell through and returned None"

/-- A snapshot of the rhythm fields of an `AudioAnalysis` object, as seen
through `getattr(self.container.container, ...)` inside the navigator.  A
`none` field models an attribute whose access fails.  Collections are
stored here as their element lists; the cyclic back-reference from a stored
collection through the analysis to itself is cut, since the navigator only
reads the sibling collection's elements. -/
structure AQAnalysis where
  bars : Option (List AudioQuantum)
  beats : Option (List AudioQuantum)
  tatums : Option (List AudioQuantum)
  sections : Option (List AudioQuantum)
  segments : Option (List AudioQuantum)
deriving DecidableEq

/-- `getattr(analysis, name)` for the rhythm fields. -/
def AQAnalysis.field (a : AQAnalysis) (name : String) : Option (List AudioQuantum) :=
  if name = "bars" then a.bars
  else if name = "beats" then a.beats
  else if name = "tatums" then a.tatums
  else if name = "sections" then a.sections
  else if name = "segments" then a.segments
  else none

/-- `AudioQuantumList.__init__(kind, container)` state: the `kind` tag, the
element list, and the back-reference to the owning analysis (`None` until
`attach`). -/
structure AudioQuantumList where
  kind : Option String
  elems : List AudioQuantum
  container : Option AQAnalysis
deriving DecidableEq

/-- `AudioQuantumList.that(filt)`: `filter(None, map(filt, self))` into a
fresh list; the filter keeps exactly the non-`None` results. -/
def AudioQuantumList.that (l : AudioQuantumList) (filt : AudioQuantum → Option AudioQuantum) :
    AudioQuantumList :=
  { kind := none, elems := l.elems.filterMap filt, container := none }

/-- The `pars` dictionary of `AudioQuantum.parent`; a kind outside the
table raises `KeyError` (here: `none`). -/
def parsKind : Option String → Option String
  | some "tatum" => some "beats"
  | some "beat" => some "bars"
  | some "bar" => some "sections"
  | _ => none

/-- The `chils` dictionary of `AudioQuantum.children`. -/
def chilsKind : Option String → Option String
  | some "beat" => some "tatums"
  | some "bar" => some "beats"
  | some "section" => some "bars"
  | _ => none

/-- Modelled from the spec: `selection.overlap(self)` (the `selection`
module is not under `src/`).  The spec defines overlap(a, interval-of-b) as
`a.start < b.start + b.duration and a.start + a.duration > b.start`; the
filter returns the quantum itself on success and an absent value
otherwise. -/
def overlapFilter (selfq x : AudioQuantum) : Option AudioQuantum :=
  if x.start < selfq.start + selfq.duration ∧ x.start + x.duration > selfq.start then
    some x
  else none

/-- The body of the `try` block of `AudioQuantum.parent`: evaluates
`self.container.container`, then `pars[self.kind]`, then the `getattr`;
`none` means some step raised (AttributeError or KeyError), which the bare
`except` turns into `return self`. -/
def tryGetUppers (q : AudioQuantum) (qcontainer : Option AudioQuantumList) :
    Option (List AudioQuantum) := do
  let c ← qcontainer
  let ana ← c.container
  let pk ← parsKind q.kind
  ana.field pk

/-- `AudioQuantum.parent()`.  The container of `q` is passed explicitly
(`q.container` in Python is a back-reference assigned by `attach`; `none`
models the attribute never having been assigned).  The final
`uppers.that(selection.overlap(self))[0]` sits outside the `try`, so an
empty filter result raises `IndexError` to the caller. -/
def AudioQuantum.parent (q : AudioQuantum) (qcontainer : Option AudioQuantumList) :
    Except String AudioQuantum :=
  match tryGetUppers q qcontainer with
  | none => Except.ok q
  | some uppers =>
    match (AudioQuantumList.that ⟨none, uppers, none⟩ (overlapFilter q)).elems.head? with
    | some p => Except.ok p
    | none => Except.error "IndexError: list index out of range"

/-- `AudioQuantum.prev(step)`.  The first statement `group =
self.container` stands before the `try` block, so a quantum whose
`container` attribute was never assigned raises `AttributeError`; only the
index lookup and the subscript are guarded by the `except`, which returns
`self`. -/
def AudioQuantum.prev (q : AudioQuantum) (qcontainer : Option AudioQuantumList)
    (step : ℤ) : Except String AudioQuantum :=
  match qcontainer with
  | none => Except.error "AttributeError: AudioQuantum object has no attribute container"
  | some group =>
    match group.elems.findIdx? (· == q) with
    | none => Except.ok q
    | some loc =>
      let new := max ((loc : ℤ) - step) 0
      match pyGetItem group.elems new with
      | some x => Except.ok x
      | none => Except.ok q

/-- `AudioQuantum.next(step)`: like `prev` but stepping forward, with the
new index clamped by `min(loc + step, len(group))` — the length itself, not
`len - 1`, so a clamped step lands one past the end and the subscript
raises `IndexError` inside the `try`, returning `self`. -/
def AudioQuantum.next (q : AudioQuantum) (qcontainer : Option AudioQuantumList)
    (step : ℤ) : Except String AudioQuantum :=
  match qcontainer with
  | none => Except.error "AttributeError: AudioQuantum object has no attribute container"
  | some group =>
    match group.elems.findIdx? (· == q) with
    | none => Except.ok q
    | some loc =>
      let new := min ((loc : ℤ) + step) group.elems.length
      match pyGetItem group.elems new with
      | some x => Except.ok x
      | none => Except.ok q

/-- `dataParser(tag, doc)`: each node of the document contributes a start
time and a confidence (modelled as the pair list `nodes`); every quantum is
created with the default `duration = 0`.  When more than one element was
parsed, the loop rewrites `out[i].duration = out[i+1].start - out[i].start`
for `i < n - 1`, and then `out[-1].duration = out[-2].duration` reads the
penultimate duration after the loop has updated it. -/
def dataParser (tag : String) (nodes : List (ℚ × ℚ)) : AudioQuantumList :=
  let out0 : List AudioQuantum :=
    nodes.map fun n =>
      { start := n.1, duration := 0, kind := some tag, confidence := some n.2 }
  let n := out0.length
  if 1 < n then
    let looped : List AudioQuantum :=
      (List.range n).map fun i =>
        if i < n - 1 then
          { out0.getD i default with
            duration := (out0.getD (i + 1) default).start - (out0.getD i default).start }
        else out0.getD i default
    let final : List AudioQuantum :=
      looped.set (n - 1)
        { looped.getD (n - 1) default with
          duration := (looped.getD (n - 2) default).duration }
    { kind := some tag, elems := final, container := none }
  else { kind := some tag, elems := out0, container := none }

/-- `AudioAnalysis.__getattribute__` restricted to a cached variable
`name`, in state-passing form.  `st` is the current cache (Python stores
`None` for an unfetched field, hence `Option`); `fetch` models the
`analyze.get_<name>` network call and `parsers` the per-field parse
functions, either of which can raise.  The result is the pair of the
outcome (the value, or the propagated exception) and the cache afterwards;
an exception leaves the cache exactly as it was, because the Python
`setattr` only runs after both the fetch and the parse returned. -/
def getCachedVar {V : Type} (fetch : String → Except String V)
    (parsers : String → Option (V → Except String V))
    (st : String → Option V) (name : String) :
    Except String V × (String → Option V) :=
  match st name with
  | some v => (Except.ok v, st)
  | none =>
    match fetch name with
    | Except.error e => (Except.error e, st)
    | Except.ok raw =>
      match (match parsers name with
             | some p => p raw
             | none => Except.ok raw) with
      | Except.error e => (Except.error e, st)
      | Except.ok value =>
        (Except.ok value, fun n => if n = name then some value else st n)

deriving instance DecidableEq for Except

/-! Concrete objects used by counterexamples and witnesses. -/

/-- A ten-row mono source buffer at sample rate 10. -/
def cexSource : AudioData :=
  AudioData.fromArray [[1],[2],[3],[4],[5],[6],[7],[8],[9],[10]] 1 10

/-- A quantum of duration 0.06 s starting at 0: at rate 10 its rounded
sample count is 1, but the slice boundary arithmetic yields 0 samples. -/
def cexQuantum : AudioQuantum :=
  { start := 0, duration := 3 / 50, kind := some "beat", confidence := none }

/-- A quantum of duration 0.2 s starting at 0.1 s (used by witnesses). -/
def cexWitnessQuantum : AudioQuantum :=
  { start := 1 / 10, duration := 2 / 10, kind := some "beat", confidence := none }

/-- An empty four-row destination buffer. -/
def cexDest : AudioData :=
  { data := [[0], [0], [0], [0]], cols := 1, endindex := 0, sampleRate := 44100,
    numChannels := none }

/-- A buffer with three allocated rows of which only one is valid. -/
def cexSlack : AudioData :=
  { data := [[5], [7], [9]], cols := 1, endindex := 1, sampleRate := 44100,
    numChannels := none }

/-- A full two-row buffer. -/
def cexFullTwo : AudioData :=
  { data := [[0], [0]], cols := 1, endindex := 2, sampleRate := 1, numChannels := none }

/-- A two-row buffer with only one valid row. -/
def cexHalfTwo : AudioData :=
  { data := [[0], [0]], cols := 1, endindex := 1, sampleRate := 1, numChannels := none }

/-- A full one-row buffer. -/
def cexOneRow : AudioData :=
  { data := [[3]], cols := 1, endindex := 1, sampleRate := 1, numChannels := none }

/-- A section quantum. -/
def cexSection : AudioQuantum :=
  { start := 0, duration := 1, kind := some "section", confidence := none }

/-- A tatum quantum. -/
def cexTatum : AudioQuantum :=
  { start := 0, duration := 1, kind := some "tatum", confidence := none }

/-! Helper lemmas. -/

lemma pyInt_of_nonneg {q : ℚ} (h : 0 ≤ q) : pyInt q = ⌊q⌋ := if_pos h

lemma parsKind_section : parsKind (some "section") = none := rfl

/-! Claim C4. -/

/-- C4 counterexample: a tatum whose `container` attribute was never
assigned does not get itself back from `prev()` — the attribute access
stands before the `try`, so the call raises instead. -/
theorem prev_without_container_refuted :
    AudioQuantum.prev cexTatum none 1 ≠ Except.ok cexTatum := by
  decide

/-- C4 (amended): navigator soft failure.  `parent()` on a quantum of kind
`section` returns the quantum itself whatever its container chain looks
like (the `pars` lookup, inside the `try`, has no entry for `section`); a
quantum that sits in a container but is not found by the index lookup gets
itself back from `prev()`; but a quantum whose `container` attribute was
never assigned raises `AttributeError` from `prev()`, because `group =
self.container` stands before the `try` block. -/
theorem navigator_fail_to_self :
    (∀ (q : AudioQuantum) (c : Option AudioQuantumList),
        q.kind = some "section" → q.parent c = Except.ok q) ∧
    (∀ (q : AudioQuantum) (step : ℤ),
        q.prev none step =
          Except.error "AttributeError: AudioQuantum object has no attribute container") ∧
    (∀ (q : AudioQuantum) (g : AudioQuantumList) (step : ℤ),
        g.elems.findIdx? (· == q) = none → q.prev (some g) step = Except.ok q) := by
  refine ⟨?_, ?_, ?_⟩
  · intro q c hk
    unfold AudioQuantum.parent tryGetUppers
    cases c with
    | none => rfl
    | some c =>
      cases hc : c.container with
      | none => simp [hc]
      | some ana => simp [hc, hk, parsKind_section]
  · intro q step
    rfl
  · intro q g step hfind
    unfold AudioQuantum.prev
    simp [hfind]

/-- C4 witness: the amended statement at concrete inputs. -/
theorem navigator_fail_to_self_witness :
    AudioQuantum.parent cexSection none = Except.ok cexSection ∧
    AudioQuantum.prev cexTatum none 1 =
      Except.error "AttributeError: AudioQuantum object has no attribute container" ∧
    AudioQuantum.prev cexTatum (some { kind := some "tatum", elems := [], container := none }) 1 =
      Except.ok cexTatum :=
  ⟨navigator_fail_to_self.1 cexSection none rfl,
   navigator_fail_to_self.2.1 cexTatum 1,
   navigator_fail_to_self.2.2 cexTatum _ 1 rfl⟩

/-! Claim C10. -/

/-- C10: `next(step)` with `loc + step` at or past the collection length
returns the quantum itself: the new index is clamped by `min(loc + step,
len(group))`, which is itself out of range, and the `IndexError` from the
subscript is caught by the fail-to-self `except`. -/
theorem next_clamp_past_end_self (g : AudioQuantumList) (q : AudioQuantum)
    (step : ℤ) (loc : ℕ)
    (hfind : g.elems.findIdx? (· == q) = some loc)
    (hover : (g.elems.length : ℤ) ≤ (loc : ℤ) + step) :
    q.next (some g) step = Except.ok q := by
  have hmin : min ((loc : ℤ) + step) (g.elems.length : ℤ) = (g.elems.length : ℤ) :=
    min_eq_right hover
  have hlen : pyGetItem g.elems (g.elems.length : ℤ) = none := by
    unfold pyGetItem
    rw [if_neg (by omega)]
    simp [List.get?_eq_none]
  simp [AudioQuantum.next, hfind, hmin, hlen]

/-- C10 witness: a one-element beats collection, stepping 5 forward from
position 0 returns the original quantum. -/
theorem next_clamp_past_end_self_witness :
    AudioQuantum.next cexTatum
      (some { kind := some "tatums", elems := [cexTatum], container := none }) 5 =
      Except.ok cexTatum :=
  next_clamp_past_end_self _ cexTatum 5 0 (by decide) (by decide)

/-! Claim C6. -/

/-- C6: the implemented `mix`, whose final branch tests the decayed
comparison `audioDataA.endindex == audioDataA.endindex`, agrees with the
variant testing the intended `audioDataA.endindex == audioDataB.endindex`
on every pair of buffers and every ratio: the decayed guard is only reached
when neither strict inequality holds, and then the intended guard is true
as well. -/
theorem mix_decayed_guard_equiv (audioDataA audioDataB : AudioData) (r : ℚ) :
    mix audioDataA audioDataB r = mixIntended audioDataA audioDataB r := by
  unfold mix mixIntended
  rcases lt_trichotomy audioDataA.endindex audioDataB.endindex with h | h | h
  · simp [h, Nat.lt_asymm h]
  · simp [h]
  · simp [h, Nat.lt_asymm h]

/-! Claim C8. -/

/-- C8: contract of the cached-field access.  (1) A fetch error propagates
and the cache is unchanged, so the field stays unfetched and the next
access retries.  (2) A parse error behaves the same way.  (3) A populated
field is answered from the cache for every fetcher — no network call can
influence the result — and the cache is unchanged.  (4) A successful fetch
(with the field's parse transform, when one is configured) stores exactly
the parsed value, after which (3) applies to every later access. -/
theorem cached_field_contract {V : Type} :
    (∀ (fetch : String → Except String V) (parsers : String → Option (V → Except String V))
       (st : String → Option V) (name : String) (e : String),
        st name = none → fetch name = Except.error e →
        getCachedVar fetch parsers st name = (Except.error e, st)) ∧
    (∀ (fetch : String → Except String V) (parsers : String → Option (V → Except String V))
       (st : String → Option V) (name : String) (raw : V)
       (p : V → Except String V) (e : String),
        st name = none → fetch name = Except.ok raw → parsers name = some p →
        p raw = Except.error e →
        getCachedVar fetch parsers st name = (Except.error e, st)) ∧
    (∀ (fetch : String → Except String V) (parsers : String → Option (V → Except String V))
       (st : String → Option V) (name : String) (v : V),
        st name = some v →
        getCachedVar fetch parsers st name = (Except.ok v, st)) ∧
    (∀ (fetch : String → Except String V) (parsers : String → Option (V → Except String V))
       (st : String → Option V) (name : String) (raw value : V),
        st name = none → fetch name = Except.ok raw →
        (match parsers name with
         | some p => p raw
         | none => Except.ok raw) = Except.ok value →
        getCachedVar fetch parsers st name =
          (Except.ok value, fun n => if n = name then some value else st n)) := by
  refine ⟨?_, ?_, ?_, ?_⟩
  · intro fetch parsers st name e h0 hf
    unfold getCachedVar
    rw [h0, hf]
  · intro fetch parsers st name raw p e h0 hf hp hpr
    unfold getCachedVar
    rw [h0, hf, hp]
    simp [hpr]
  · intro fetch parsers st name v h0
    unfold getCachedVar
    rw [h0]
  · intro fetch parsers st name raw value h0 hf hpr
    unfold getCachedVar
    rw [h0, hf]
    simp [hpr]

/-- C8 witness: over `V = ℕ`, with an empty cache, a failing fetcher
propagates its error and leaves the cache empty; a succeeding fetcher
stores 7 under `bars`; after that, even the failing fetcher is never
consulted and the cached 7 is returned with the cache unchanged. -/
theorem cached_field_contract_witness :
    getCachedVar (V := ℕ) (fun _ => Except.error "FetchError")
        (fun _ => none) (fun _ => none) "bars" =
      (Except.error "FetchError", fun _ => none) ∧
    getCachedVar (V := ℕ) (fun _ => Except.ok 7)
        (fun _ => none) (fun _ => none) "bars" =
      (Except.ok 7, fun n => if n = "bars" then some 7 else none) ∧
    getCachedVar (V := ℕ) (fun _ => Except.error "FetchError")
        (fun _ => none) (fun n => if n = "bars" then some 7 else none) "bars" =
      (Except.ok 7, fun n => if n = "bars" then some 7 else none) :=
  ⟨cached_field_contract.1 _ _ _ "bars" "FetchError" rfl rfl,
   cached_field_contract.2.2.2 _ _ _ "bars" 7 7 rfl rfl rfl,
   cached_field_contract.2.2.1 _ _ _ "bars" 7 (by simp)⟩

/-! Claim C9. -/

/-- C9: slicing the full sample-index range `[0, len(data))` yields a
buffer whose backing array equals the original's `data` row for row, whose
`sampleRate` is inherited, and whose logical length covers the whole copy.
Independence of the copy is built into the constructor: `AudioData.__init__`
allocates fresh zeros of the sliced shape and copies the rows in. -/
theorem slice_full_range_roundtrip (a : AudioData) :
    (a.getsliceInt 0 (a.data.length : ℤ)).data = a.data ∧
    (a.getsliceInt 0 (a.data.length : ℤ)).sampleRate = a.sampleRate ∧
    (a.getsliceInt 0 (a.data.length : ℤ)).endindex = a.data.length := by
  have hb : pyBound a.data.length (a.data.length : ℤ) = a.data.length := by
    unfold pyBound
    rw [if_neg (by omega)]
    simp
  have h0 : pyBound a.data.length 0 = 0 := by
    unfold pyBound
    simp
  have hs : pySlice a.data 0 (a.data.length : ℤ) = a.data := by
    unfold pySlice
    rw [hb, h0, List.take_length, List.drop_zero]
  refine ⟨?_, rfl, ?_⟩ <;>
    simp [AudioData.getsliceInt, AudioData.fromArray, hs]

/-! Helper lemmas about `writeRows` and `append`. -/

lemma writeRows_length (dst src : List (List ℤ)) (e : ℕ)
    (h : e + src.length ≤ dst.length) :
    (writeRows dst e src).length = dst.length := by
  simp [writeRows]
  omega

lemma take_of_writeRows (dst src : List (List ℤ)) (e : ℕ)
    (h : e + src.length ≤ dst.length) :
    (writeRows dst e src).take e = dst.take e := by
  unfold writeRows
  rw [List.append_assoc, List.take_append_eq_append_take]
  have hlen : (dst.take e).length = e := by
    rw [List.length_take]
    omega
  rw [hlen]
  simp [List.take_take]

lemma drop_take_of_writeRows (dst src : List (List ℤ)) (e : ℕ)
    (h : e + src.length ≤ dst.length) :
    ((writeRows dst e src).drop e).take src.length = src := by
  unfold writeRows
  rw [List.append_assoc, List.drop_append_eq_append_drop]
  have hlen : (dst.take e).length = e := by
    rw [List.length_take]
    omega
  rw [hlen]
  simp [List.drop_take, List.take_append_eq_append_take]

lemma drop_of_writeRows (dst src : List (List ℤ)) (e : ℕ)
    (h : e + src.length ≤ dst.length) :
    (writeRows dst e src).drop (e + src.length) = dst.drop (e + src.length) := by
  unfold writeRows
  rw [List.append_assoc, List.drop_append_eq_append_drop]
  have hlen : (dst.take e).length = e := by
    rw [List.length_take]
    omega
  rw [hlen]
  rw [List.drop_append_eq_append_drop]
  have h1 : e + src.length - e = src.length := by omega
  simp [h1, List.drop_take]

lemma take_prefix_of_writeRows (dst src : List (List ℤ)) (e : ℕ)
    (h : e + src.length ≤ dst.length) :
    (writeRows dst e src).take (e + src.length) = dst.take e ++ src := by
  unfold writeRows
  rw [List.append_assoc, List.take_append_eq_append_take]
  have hlen : (dst.take e).length = e := by
    rw [List.length_take]
    omega
  rw [hlen]
  rw [List.take_append_eq_append_take]
  have h1 : e + src.length - e = src.length := by omega
  have h2 : min (e + src.length) e = e := by omega
  simp [h1, List.take_take, h2]

lemma append_ok_of_fits (a b : AudioData)
    (hcols : b.cols = a.cols)
    (hcap : a.endindex + b.data.length ≤ a.data.length) :
    a.append b =
      Except.ok { a with data := writeRows a.data a.endindex b.data,
                         endindex := a.endindex + b.data.length } := by
  unfold AudioData.append
  have h1 : min (a.endindex + b.data.length) a.data.length = a.endindex + b.data.length :=
    min_eq_left hcap
  have h2 : min a.endindex a.data.length = a.endindex := min_eq_left (by omega)
  rw [if_pos]
  constructor
  · omega
  · exact hcols

/-! Claim C2. -/

/-- C2 counterexample: appending a buffer with three allocated rows of
which only one is valid advances `endindex` by 3 (the allocated length),
not by 1 (the valid length) as the claim states. -/
theorem append_advances_by_valid_refuted :
    (AudioData.append cexDest cexSlack).map AudioData.endindex ≠
      Except.ok (cexDest.endindex + cexSlack.endindex) := by
  decide

/-- C2 (amended): when the destination has room for `other`'s allocated
rows (and the channel shapes agree), `append` copies `other`'s entire
allocated array — rows `[0, len(other.data))`, valid or not — into
`self.data` starting at row `self.endindex`, leaves the rows outside that
window unchanged, and advances `self.endindex` by the allocated length
`len(other.data)`.  This coincides with the claim exactly when
`other.endindex = len(other.data)`, which holds for every slice produced by
`getslice`. -/
theorem append_copies_allocated (a b : AudioData)
    (hcols : b.cols = a.cols)
    (hcap : a.endindex + b.data.length ≤ a.data.length) :
    ∃ r, a.append b = Except.ok r ∧
      r.endindex = a.endindex + b.data.length ∧
      r.data.length = a.data.length ∧
      r.data.take a.endindex = a.data.take a.endindex ∧
      (r.data.drop a.endindex).take b.data.length = b.data ∧
      r.data.drop (a.endindex + b.data.length) = a.data.drop (a.endindex + b.data.length) := by
  refine ⟨_, append_ok_of_fits a b hcols hcap, rfl, ?_, ?_, ?_, ?_⟩
  · exact writeRows_length a.data b.data a.endindex hcap
  · exact take_of_writeRows a.data b.data a.endindex hcap
  · exact drop_take_of_writeRows a.data b.data a.endindex hcap
  · exact drop_of_writeRows a.data b.data a.endindex hcap

/-- C2 witness: the amended statement at a concrete input (a four-row empty
destination, a three-row source). -/
theorem append_copies_allocated_witness :
    ∃ r, cexDest.append cexSlack = Except.ok r ∧
      r.endindex = cexDest.endindex + cexSlack.data.length ∧
      r.data.length = cexDest.data.length ∧
      r.data.take cexDest.endindex = cexDest.data.take cexDest.endindex ∧
      (r.data.drop cexDest.endindex).take cexSlack.data.length = cexSlack.data ∧
      r.data.drop (cexDest.endindex + cexSlack.data.length) =
        cexDest.data.drop (cexDest.endindex + cexSlack.data.length) :=
  append_copies_allocated cexDest cexSlack (by decide) (by decide)

/-! Claim C7. -/

/-- C7 counterexample: with `endindex` at capacity and a one-row source —
channel shapes matching and the buffer invariant holding — the numpy
assignment broadcasts the `(1, c)` source into the empty destination slice
`data[cap:cap+1]` and succeeds silently, advancing `endindex` past the
capacity; so the claimed equivalence "fails iff `self.endindex +
len(other)` exceeds the capacity" is false at this input. -/
theorem append_one_row_broadcast_refuted :
    ¬ ((∃ r, cexFullTwo.append cexOneRow = Except.ok r) ↔
        cexFullTwo.endindex + cexOneRow.data.length ≤ cexFullTwo.data.length) := by
  intro h
  have h2 := h.mp ⟨{ cexFullTwo with endindex := 3 }, rfl⟩
  revert h2
  decide

/-- C7 (amended): under the buffer invariant `endindex ≤ capacity` and
matching channel shapes, `append` raises exactly when `self.endindex +
len(other)` exceeds the capacity `len(self.data)` AND the source has more
than one allocated row; a one-row source never fails, because numpy
broadcasts its `(1, c)` array over the destination slice — in particular,
on a full buffer it broadcasts into the empty slice, writes nothing, and
still advances `endindex` past the capacity (a silent overrun rather than
an error, the one exception to the must-not-truncate contract).  When
`append` does fail, the failure is atomic: the numpy shape check raises
before anything is written and `endindex` is only advanced afterwards,
which the embedding reflects by returning no updated buffer in the error
case. -/
theorem append_capacity_error_characterized (a b : AudioData)
    (hcols : b.cols = a.cols)
    (hinv : a.endindex ≤ a.data.length) :
    ((∃ r, a.append b = Except.ok r) ↔
      a.endindex + b.data.length ≤ a.data.length ∨ b.data.length = 1) ∧
    (a.data.length < a.endindex + b.data.length → b.data.length = 1 →
      a.append b = Except.ok { a with endindex := a.endindex + b.data.length }) := by
  constructor
  · constructor
    · rintro ⟨r, hr⟩
      unfold AudioData.append at hr
      by_cases hg1 : min (a.endindex + b.data.length) a.data.length -
          min a.endindex a.data.length = b.data.length ∧ b.cols = a.cols
      · left
        have h2 : min a.endindex a.data.length = a.endindex := min_eq_left hinv
        omega
      · rw [if_neg hg1] at hr
        by_cases hg2 : b.data.length = 1 ∧ b.cols = a.cols
        · right
          exact hg2.1
        · rw [if_neg hg2] at hr
          exact absurd hr (by simp)
    · intro hcap
      rcases hcap with hle | hone
      · exact ⟨_, append_ok_of_fits a b hcols hle⟩
      · by_cases hle : a.endindex + b.data.length ≤ a.data.length
        · exact ⟨_, append_ok_of_fits a b hcols hle⟩
        · refine ⟨{ a with endindex := a.endindex + b.data.length }, ?_⟩
          unfold AudioData.append
          rw [if_neg (by omega), if_pos ⟨hone, hcols⟩]
  · intro hover hone
    unfold AudioData.append
    rw [if_neg (by omega), if_pos ⟨hone, hcols⟩]

/-- C7 witness: the amended characterization at the concrete broadcast
input — a full two-row buffer and a one-row source. -/
theorem append_capacity_error_characterized_witness :
    ((∃ r, cexFullTwo.append cexOneRow = Except.ok r) ↔
      cexFullTwo.endindex + cexOneRow.data.length ≤ cexFullTwo.data.length ∨
        cexOneRow.data.length = 1) ∧
    (cexFullTwo.data.length < cexFullTwo.endindex + cexOneRow.data.length →
      cexOneRow.data.length = 1 →
      cexFullTwo.append cexOneRow =
        Except.ok { cexFullTwo with endindex := cexFullTwo.endindex + cexOneRow.data.length }) :=
  append_capacity_error_characterized cexFullTwo cexOneRow (by decide) (by decide)

/-! Claim C5. -/

lemma length_addIntoFirstRows (dst src : List (List ℤ)) (k : ℕ)
    (hk : k ≤ dst.length) (hs : src.length = k) :
    (addIntoFirstRows dst k src).length = dst.length := by
  simp [addIntoFirstRows, addRows]
  omega

lemma upd_data_endindex (a : AudioData) (d : List (List ℤ)) :
    ({ a with data := d } : AudioData).endindex = a.endindex := rfl

lemma upd_data_cols (a : AudioData) (d : List (List ℤ)) :
    ({ a with data := d } : AudioData).cols = a.cols := rfl

lemma upd_data_data (a : AudioData) (d : List (List ℤ)) :
    ({ a with data := d } : AudioData).data = d := rfl

/-- C5 counterexample: with equal sample rates and channel counts but a
shorter buffer whose allocation exceeds its valid region (two rows
allocated, one valid), `mix` raises a broadcast `ValueError` instead of
returning the longer input: `B.data[0:]` is the whole allocation, which
does not fit `A.data[:B.endindex]`. -/
theorem mix_slack_buffer_refuted :
    mix cexFullTwo cexHalfTwo (1 / 2) =
      Except.error "ValueError: operands could not be broadcast together" := by
  simp [mix, cexFullTwo, cexHalfTwo]

/-- C5 (amended): for buffers whose valid region fills their allocation
(`endindex = len(data)`, as holds for every getslice product) with equal
sample rate and channel count, `mix` mutates the two inputs in place and
returns one of them — the one with the larger `endindex`, preferring
`audioDataA` on a tie — and the returned buffer keeps that longer input's
`endindex`, allocated row count and channel count from before the call.
The embedding returns both post states plus a flag naming which input is
the Python return value, so no third buffer exists by construction. -/
theorem mix_returns_longer_buffer (A B : AudioData) (r : ℚ)
    (hA : A.endindex = A.data.length) (hB : B.endindex = B.data.length)
    (hcols : B.cols = A.cols) (hsr : B.sampleRate = A.sampleRate) :
    ∃ A2 B2 pick, mix A B r = Except.ok (A2, B2, pick) ∧
      pick = decide (B.endindex ≤ A.endindex) ∧
      (if pick then A2 else B2).endindex = max A.endindex B.endindex ∧
      (if pick then A2 else B2).data.length = (if pick then A else B).data.length ∧
      (if pick then A2 else B2).cols = (if pick then A else B).cols := by
  rcases lt_trichotomy A.endindex B.endindex with h | h | h
  · refine ⟨{ A with data := A.data.map (scaleRow r) }, { B with data := addIntoFirstRows (B.data.map (scaleRow (1 - r))) A.endindex (A.data.map (scaleRow r)) }, false, ?_, ?_, ?_, ?_, ?_⟩
    · simp only [mix, upd_data_endindex, upd_data_cols, upd_data_data, List.length_map]
      rw [if_neg (by omega), if_pos (by omega),
        if_pos (⟨by omega, by rw [hcols]⟩ :
          A.data.length = min A.endindex B.data.length ∧ A.cols = B.cols)]
    · have hle : ¬ B.endindex ≤ A.endindex := by omega
      simp [hle]
    · simp only [Bool.false_eq_true, if_false, upd_data_endindex]
      omega
    · simp only [Bool.false_eq_true, if_false, upd_data_data]
      rw [length_addIntoFirstRows _ _ _ (by rw [List.length_map]; omega)
        (by rw [List.length_map]; omega)]
      rw [List.length_map]
    · simp only [Bool.false_eq_true, if_false, upd_data_cols]
  · refine ⟨{ A with data := List.zipWith addRows (A.data.map (scaleRow r)) (B.data.map (scaleRow (1 - r))) }, { B with data := B.data.map (scaleRow (1 - r)) }, true, ?_, ?_, ?_, ?_, ?_⟩
    · simp only [mix, upd_data_endindex, upd_data_cols, upd_data_data, List.length_map]
      rw [if_neg (by omega), if_neg (by omega)]
      simp only [if_true]
      rw [if_pos (⟨by omega, hcols⟩ : B.data.length = A.data.length ∧ B.cols = A.cols)]
    · have hle : B.endindex ≤ A.endindex := by omega
      simp [hle]
    · simp only [if_true, upd_data_endindex]
      omega
    · simp only [if_true, upd_data_data]
      rw [List.length_zipWith]
      simp only [List.length_map]
      omega
    · simp only [if_true, upd_data_cols]
  · refine ⟨{ A with data := addIntoFirstRows (A.data.map (scaleRow r)) B.endindex (B.data.map (scaleRow (1 - r))) }, { B with data := B.data.map (scaleRow (1 - r)) }, true, ?_, ?_, ?_, ?_, ?_⟩
    · simp only [mix, upd_data_endindex, upd_data_cols, upd_data_data, List.length_map]
      rw [if_pos (by omega),
        if_pos (⟨by omega, hcols⟩ :
          B.data.length = min B.endindex A.data.length ∧ B.cols = A.cols)]
    · have hle : B.endindex ≤ A.endindex := by omega
      simp [hle]
    · simp only [if_true, upd_data_endindex]
      omega
    · simp only [if_true, upd_data_data]
      rw [length_addIntoFirstRows _ _ _ (by rw [List.length_map]; omega)
        (by rw [List.length_map]; omega)]
      rw [List.length_map]
    · simp only [if_true, upd_data_cols]

/-- C5 witness: two full one-column buffers of two and one rows. -/
theorem mix_returns_longer_buffer_witness :
    ∃ A2 B2 pick,
      mix cexFullTwo cexOneRow (1 / 2) = Except.ok (A2, B2, pick) ∧
      pick = decide (cexOneRow.endindex ≤ cexFullTwo.endindex) ∧
      (if pick then A2 else B2).endindex = max cexFullTwo.endindex cexOneRow.endindex ∧
      (if pick then A2 else B2).data.length =
        (if pick then cexFullTwo else cexOneRow).data.length ∧
      (if pick then A2 else B2).cols = (if pick then cexFullTwo else cexOneRow).cols :=
  mix_returns_longer_buffer cexFullTwo cexOneRow (1 / 2) (by decide) (by decide) (by decide) rfl

/-! Claim C3. -/

lemma getD_range_map {α : Type} (f : ℕ → α) (n i : ℕ) (d : α) (h : i < n) :
    ((List.range n).map f).getD i d = f i := by
  rw [List.getD_eq_getElem?_getD, List.getElem?_map, List.getElem?_range h]
  rfl

lemma getD_set_of_ne {α : Type} (l : List α) (i j : ℕ) (a d : α) (h : i ≠ j) :
    (l.set i a).getD j d = l.getD j d := by
  rw [List.getD_eq_getElem?_getD, List.getD_eq_getElem?_getD, List.getElem?_set_ne h]

lemma getD_set_of_lt {α : Type} (l : List α) (i : ℕ) (a d : α) (h : i < l.length) :
    (l.set i a).getD i d = a := by
  rw [List.getD_eq_getElem?_getD, List.getElem?_set_eq_of_lt a h]
  rfl

lemma upd_duration_start (q : AudioQuantum) (d : ℚ) :
    ({ q with duration := d } : AudioQuantum).start = q.start := rfl

lemma upd_duration_duration (q : AudioQuantum) (d : ℚ) :
    ({ q with duration := d } : AudioQuantum).duration = d := rfl

lemma dataParser_length (tag : String) (nodes : List (ℚ × ℚ)) :
    (dataParser tag nodes).elems.length = nodes.length := by
  simp only [dataParser]
  split <;> simp

/-- C3: every collection built by `dataParser` from at least two nodes
satisfies the chaining invariant: for every index `i` with `i + 1 < n`,
`quantum[i].start + quantum[i].duration = quantum[i+1].start` (exact — the
embedding computes in `ℚ`, so the floating-point tolerance is not needed),
and the final element's duration equals the penultimate element's. -/
theorem dataParser_chain_invariant (tag : String) (nodes : List (ℚ × ℚ))
    (h2 : 2 ≤ (dataParser tag nodes).elems.length) :
    (∀ i, i + 1 < (dataParser tag nodes).elems.length →
      ((dataParser tag nodes).elems.getD i default).start +
        ((dataParser tag nodes).elems.getD i default).duration =
        ((dataParser tag nodes).elems.getD (i + 1) default).start) ∧
    ((dataParser tag nodes).elems.getD ((dataParser tag nodes).elems.length - 1)
        default).duration =
      ((dataParser tag nodes).elems.getD ((dataParser tag nodes).elems.length - 2)
        default).duration := by
  have hlen := dataParser_length tag nodes
  have h1 : 1 < nodes.length := by omega
  simp only [dataParser, List.length_map, h1, if_true, List.length_set, List.length_range,
    hlen]
  constructor
  · intro i hi
    rw [getD_set_of_ne _ _ _ _ _ (by omega)]
    rw [getD_range_map _ _ _ _ (by omega)]
    rw [if_pos (by omega), upd_duration_start, upd_duration_duration]
    by_cases hnext : i + 1 = nodes.length - 1
    · rw [hnext, getD_set_of_lt _ _ _ _ (by simp; omega), upd_duration_start]
      rw [getD_range_map _ _ _ _ (by omega)]
      rw [if_neg (by omega), ← hnext]
      ring
    · rw [getD_set_of_ne _ _ _ _ _ (by omega)]
      rw [getD_range_map _ _ _ _ (by omega)]
      rw [if_pos (by omega), upd_duration_start]
      ring
  · rw [getD_set_of_lt _ _ _ _ (by simp; omega), upd_duration_duration]
    rw [getD_set_of_ne _ _ _ _ _ (by omega)]

/-- C3 witness: the chain invariant at a concrete three-node document. -/
theorem dataParser_chain_invariant_witness :
    (∀ i, i + 1 < (dataParser "beat" [(0, 1), (1, 1), (5/2, 1)]).elems.length →
      ((dataParser "beat" [(0, 1), (1, 1), (5/2, 1)]).elems.getD i default).start +
        ((dataParser "beat" [(0, 1), (1, 1), (5/2, 1)]).elems.getD i default).duration =
        ((dataParser "beat" [(0, 1), (1, 1), (5/2, 1)]).elems.getD (i + 1) default).start) ∧
    ((dataParser "beat" [(0, 1), (1, 1), (5/2, 1)]).elems.getD
        ((dataParser "beat" [(0, 1), (1, 1), (5/2, 1)]).elems.length - 1) default).duration =
      ((dataParser "beat" [(0, 1), (1, 1), (5/2, 1)]).elems.getD
        ((dataParser "beat" [(0, 1), (1, 1), (5/2, 1)]).elems.length - 2) default).duration :=
  dataParser_chain_invariant "beat" [(0, 1), (1, 1), (5/2, 1)]
    (by rw [dataParser_length]; simp)

/-! Claim C1: helper lemmas. -/

lemma floor_add_le_floor_add_floor_one (x y : ℚ) : ⌊x + y⌋ ≤ ⌊x⌋ + ⌊y⌋ + 1 := by
  have h1 : x < ⌊x⌋ + 1 := Int.lt_floor_add_one x
  have h2 : y < ⌊y⌋ + 1 := Int.lt_floor_add_one y
  have h3 : (⌊x + y⌋ : ℚ) ≤ x + y := Int.floor_le _
  have h4 : ((⌊x + y⌋ : ℤ) : ℚ) < ((⌊x⌋ + ⌊y⌋ + 2 : ℤ) : ℚ) := by push_cast; linarith
  have h5 : ⌊x + y⌋ < ⌊x⌋ + ⌊y⌋ + 2 := by exact_mod_cast h4
  omega

lemma getItemQuantum_cols (a : AudioData) (s : AudioQuantum) :
    (a.getItemQuantum s).cols = a.cols := rfl

lemma getItemQuantum_length (a : AudioData) (s : AudioQuantum)
    (hsr : 0 ≤ a.sampleRate) (hst : 0 ≤ s.start) (hdur : 0 ≤ s.duration)
    (hin : pyInt ((s.start + s.duration) * a.sampleRate) ≤ (a.data.length : ℤ)) :
    ((a.getItemQuantum s).data.length : ℤ) =
      pyInt ((s.start + s.duration) * a.sampleRate) - pyInt (s.start * a.sampleRate) := by
  have hu0 : (0 : ℚ) ≤ s.start * a.sampleRate := mul_nonneg hst hsr
  have hv0 : (0 : ℚ) ≤ (s.start + s.duration) * a.sampleRate :=
    mul_nonneg (by linarith) hsr
  have huv : s.start * a.sampleRate ≤ (s.start + s.duration) * a.sampleRate :=
    mul_le_mul_of_nonneg_right (by linarith) hsr
  rw [pyInt_of_nonneg hv0] at hin
  rw [pyInt_of_nonneg hv0, pyInt_of_nonneg hu0]
  have hfu : (0 : ℤ) ≤ ⌊s.start * a.sampleRate⌋ := Int.floor_nonneg.mpr hu0
  have hfv : ⌊s.start * a.sampleRate⌋ ≤ ⌊(s.start + s.duration) * a.sampleRate⌋ :=
    Int.floor_le_floor huv
  unfold AudioData.getItemQuantum AudioData.getsliceInt AudioData.fromArray pySlice pyBound
  rw [pyInt_of_nonneg hv0, pyInt_of_nonneg hu0]
  rw [if_neg (by omega), if_neg (by omega)]
  simp only [List.length_drop, List.length_take]
  omega

lemma foldl_add_eq_sum (f : AudioQuantum → ℤ) (segs : List AudioQuantum) (c : ℤ) :
    segs.foldl (fun acc s => acc + f s) c = c + (segs.map f).sum := by
  induction segs generalizing c with
  | nil => simp
  | cons s t ih =>
    simp only [List.foldl_cons, List.map_cons, List.sum_cons, ih]
    ring

lemma natCast_listSum_eq (segs : List AudioQuantum) (g : AudioQuantum → ℕ)
    (f : AudioQuantum → ℤ) (h : ∀ s ∈ segs, (g s : ℤ) = f s) :
    (((segs.map g).sum : ℕ) : ℤ) = (segs.map f).sum := by
  induction segs with
  | nil => simp
  | cons s t ih =>
    simp only [List.map_cons, List.sum_cons, Nat.cast_add]
    rw [h s (List.mem_cons_self s t), ih (fun x hx => h x (List.mem_cons_of_mem s hx))]

lemma listSum_le_sum_add_length (f g : AudioQuantum → ℤ) (segs : List AudioQuantum)
    (h : ∀ s ∈ segs, f s ≤ g s + 1) :
    (segs.map f).sum ≤ (segs.map g).sum + segs.length := by
  induction segs with
  | nil => simp
  | cons s t ih =>
    simp only [List.map_cons, List.sum_cons, List.length_cons]
    have h1 := h s (List.mem_cons_self s t)
    have h2 := ih (fun x hx => h x (List.mem_cons_of_mem s hx))
    push_cast
    omega

lemma foldlM_append_ok (pieces : List AudioData) (acc : AudioData)
    (hc : ∀ p ∈ pieces, p.cols = acc.cols)
    (hcap : acc.endindex + (pieces.map fun p => p.data.length).sum ≤ acc.data.length) :
    ∃ r, pieces.foldlM (fun b p => b.append p) acc = Except.ok r ∧
      r.endindex = acc.endindex + (pieces.map fun p => p.data.length).sum ∧
      r.data.length = acc.data.length ∧
      r.cols = acc.cols ∧
      r.data.take r.endindex =
        acc.data.take acc.endindex ++ (pieces.map fun p => p.data).flatten := by
  induction pieces generalizing acc with
  | nil => exact ⟨acc, rfl, by simp, rfl, rfl, by simp⟩
  | cons p t ih =>
    have hcols : p.cols = acc.cols := hc p (List.mem_cons_self p t)
    have hsum : acc.endindex + p.data.length +
        (t.map fun q => q.data.length).sum ≤ acc.data.length := by
      have := hcap
      simp only [List.map_cons, List.sum_cons] at this
      omega
    have hcap1 : acc.endindex + p.data.length ≤ acc.data.length := by omega
    have hstep := append_ok_of_fits acc p hcols hcap1
    rw [List.foldlM_cons, hstep]
    have hlen' := writeRows_length acc.data p.data acc.endindex hcap1
    obtain ⟨r, hr, hend, hrlen, hrcols, hrtake⟩ :=
      ih { acc with data := writeRows acc.data acc.endindex p.data,
                    endindex := acc.endindex + p.data.length }
        (by intro q hq; exact (hc q (List.mem_cons_of_mem p hq)).trans rfl)
        (by simpa [hlen'] using hsum)
    refine ⟨r, ?_, ?_, ?_, ?_, ?_⟩
    · simpa using hr
    · simp only [List.map_cons, List.sum_cons]
      simp only [upd_data_endindex] at hend
      omega
    · rw [hrlen]
      simpa using hlen'
    · exact hrcols
    · rw [hrtake]
      simp only [upd_data_data]
      rw [take_prefix_of_writeRows acc.data p.data acc.endindex hcap1]
      simp [List.append_assoc]

/-! Claim C1. -/

lemma foldlM_getItem (a : AudioData) (segs : List AudioQuantum) (init : AudioData) :
    segs.foldlM (fun acc s => acc.append (a.getItemQuantum s)) init =
      (segs.map fun s => a.getItemQuantum s).foldlM (fun b p => b.append p) init := by
  induction segs generalizing init with
  | nil => rfl
  | cons s t ih =>
    rw [List.map_cons, List.foldlM_cons, List.foldlM_cons]
    cases h : init.append (a.getItemQuantum s) with
    | error e => rfl
    | ok b => exact ih b

lemma getpieces_assembles (a : AudioData) (segs : List AudioQuantum)
    (hsr : 0 ≤ a.sampleRate)
    (hseg : ∀ s ∈ segs, 0 ≤ s.start ∧ 0 ≤ s.duration ∧
      pyInt ((s.start + s.duration) * a.sampleRate) ≤ (a.data.length : ℤ))
    (hcount : segs.length ≤ 100000) :
    ∃ r, getpieces a segs = Except.ok r ∧
      (r.endindex : ℤ) =
        (segs.map fun s =>
          pyInt ((s.start + s.duration) * a.sampleRate) -
            pyInt (s.start * a.sampleRate)).sum ∧
      r.data.take r.endindex = (segs.map fun s => (a.getItemQuantum s).data).flatten := by
  have hlen : ∀ s ∈ segs, ((a.getItemQuantum s).data.length : ℤ) =
      pyInt ((s.start + s.duration) * a.sampleRate) - pyInt (s.start * a.sampleRate) := by
    intro s hs
    obtain ⟨h1, h2, h3⟩ := hseg s hs
    exact getItemQuantum_length a s hsr h1 h2 h3
  have hF0 : ∀ s ∈ segs, 0 ≤ pyInt (s.duration * a.sampleRate) := by
    intro s hs
    obtain ⟨h1, h2, h3⟩ := hseg s hs
    rw [pyInt_of_nonneg (mul_nonneg h2 hsr)]
    exact Int.floor_nonneg.mpr (mul_nonneg h2 hsr)
  have hFbound : ∀ s ∈ segs,
      pyInt ((s.start + s.duration) * a.sampleRate) - pyInt (s.start * a.sampleRate) ≤
        pyInt (s.duration * a.sampleRate) + 1 := by
    intro s hs
    obtain ⟨h1, h2, h3⟩ := hseg s hs
    rw [pyInt_of_nonneg (mul_nonneg (by linarith) hsr),
      pyInt_of_nonneg (mul_nonneg h1 hsr), pyInt_of_nonneg (mul_nonneg h2 hsr)]
    have hdist : (s.start + s.duration) * a.sampleRate =
        s.start * a.sampleRate + s.duration * a.sampleRate := by ring
    rw [hdist]
    have := floor_add_le_floor_add_floor_one (s.start * a.sampleRate)
      (s.duration * a.sampleRate)
    omega
  have hsum0 : 0 ≤ (segs.map fun s => pyInt (s.duration * a.sampleRate)).sum :=
    List.sum_nonneg (by
      intro x hx
      obtain ⟨s, hs, rfl⟩ := List.mem_map.mp hx
      exact hF0 s hs)
  have hdur : segs.foldl (fun acc s => acc + pyInt (s.duration * a.sampleRate)) 0 + 100000 =
      (segs.map fun s => pyInt (s.duration * a.sampleRate)).sum + 100000 := by
    rw [foldl_add_eq_sum]
    omega
  have hsumle : (segs.map fun s =>
        pyInt ((s.start + s.duration) * a.sampleRate) - pyInt (s.start * a.sampleRate)).sum ≤
      (segs.map fun s => pyInt (s.duration * a.sampleRate)).sum + segs.length :=
    listSum_le_sum_add_length _ _ segs hFbound
  have hcast : (((segs.map fun p => (a.getItemQuantum p).data.length).sum : ℕ) : ℤ) =
      (segs.map fun s =>
        pyInt ((s.start + s.duration) * a.sampleRate) - pyInt (s.start * a.sampleRate)).sum :=
    natCast_listSum_eq segs _ _ hlen
  unfold getpieces
  rw [hdur, if_neg (by omega), foldlM_getItem]
  have hcap : (AudioData.fromShape
        ((segs.map fun s => pyInt (s.duration * a.sampleRate)).sum + 100000).toNat
        a.cols a.sampleRate a.cols).endindex +
      ((segs.map fun s => a.getItemQuantum s).map fun p => p.data.length).sum ≤
      (AudioData.fromShape
        ((segs.map fun s => pyInt (s.duration * a.sampleRate)).sum + 100000).toNat
        a.cols a.sampleRate a.cols).data.length := by
    simp only [AudioData.fromShape, List.length_replicate, List.map_map, Function.comp_def]
    omega
  obtain ⟨r, hr, hend, hrlen, hrcols, hrtake⟩ :=
    foldlM_append_ok (segs.map fun s => a.getItemQuantum s)
      (AudioData.fromShape
        ((segs.map fun s => pyInt (s.duration * a.sampleRate)).sum + 100000).toNat
        a.cols a.sampleRate a.cols)
      (by
        intro p hp
        obtain ⟨s, hs, rfl⟩ := List.mem_map.mp hp
        rfl)
      hcap
  refine ⟨r, hr, ?_, ?_⟩
  · rw [hend]
    simp only [AudioData.fromShape, List.map_map, Function.comp_def]
    omega
  · rw [hrtake]
    simp only [AudioData.fromShape, List.map_map, Function.comp_def, List.take_zero,
      List.nil_append]

/-- C1 counterexample: for the quantum (start 0, duration 0.06) over the
ten-row source at rate 10, the claimed length `round(duration * rate) =
round(0.6) = 1`, but the assembled buffer's `endindex` is 0: the slice
contributes `int((start+duration)*rate) - int(start*rate) = int(0.6) -
int(0) = 0` rows. -/
theorem getpieces_round_length_refuted :
    (getpieces cexSource [cexQuantum]).map (fun x => (x.endindex : ℤ)) ≠
      Except.ok (([cexQuantum].map fun s =>
        round (s.duration * cexSource.sampleRate)).sum) := by
  obtain ⟨r, hr, hend, -⟩ := getpieces_assembles cexSource [cexQuantum]
    (by norm_num [cexSource, AudioData.fromArray])
    (by
      intro s hs
      simp only [List.mem_singleton] at hs
      subst hs
      norm_num [cexSource, cexQuantum, AudioData.fromArray, pyInt])
    (by simp)
  have h0 : (getpieces cexSource [cexQuantum]).map (fun x => (x.endindex : ℤ)) =
      Except.ok 0 := by
    rw [hr]
    simp only [Except.map]
    rw [hend]
    norm_num [cexSource, cexQuantum, AudioData.fromArray, pyInt]
  have h1 : (([cexQuantum].map fun s =>
      round (s.duration * cexSource.sampleRate)).sum) = 1 := by
    norm_num [cexSource, cexQuantum, AudioData.fromArray, round_eq]
  rw [h0, h1]
  simp

/-- C1 (amended): under nonnegative starts and durations, a nonnegative
sample rate, slices inside the source, and at most 100000 quanta (so the
fixed margin absorbs the at-most-one-row slack each slice can add over
`int(duration * rate)`), `getpieces` succeeds and the assembled buffer's
logical length is exactly the sum over the quanta, in the given
caller-determined order, of `int((start + duration) * rate) -
int(start * rate)` — the slice-boundary truncation formula, not
`round(duration * rate)` — and its valid region `data[:endindex]` is the
concatenation of the source's slices in that order. -/
theorem getpieces_truncated_boundary_length (a : AudioData) (segs : List AudioQuantum)
    (hsr : 0 ≤ a.sampleRate)
    (hseg : ∀ s ∈ segs, 0 ≤ s.start ∧ 0 ≤ s.duration ∧
      pyInt ((s.start + s.duration) * a.sampleRate) ≤ (a.data.length : ℤ))
    (hcount : segs.length ≤ 100000) :
    ∃ r, getpieces a segs = Except.ok r ∧
      (r.endindex : ℤ) =
        (segs.map fun s =>
          pyInt ((s.start + s.duration) * a.sampleRate) -
            pyInt (s.start * a.sampleRate)).sum ∧
      r.data.take r.endindex = (segs.map fun s => (a.getItemQuantum s).data).flatten :=
  getpieces_assembles a segs hsr hseg hcount

/-- C1 witness: one quantum of duration 0.2 s starting at 0.1 s over the
ten-row source at rate 10. -/
theorem getpieces_truncated_boundary_length_witness :
    ∃ r, getpieces cexSource [cexWitnessQuantum] = Except.ok r ∧
      (r.endindex : ℤ) =
        ([cexWitnessQuantum].map fun s =>
          pyInt ((s.start + s.duration) * cexSource.sampleRate) -
            pyInt (s.start * cexSource.sampleRate)).sum ∧
      r.data.take r.endindex =
        ([cexWitnessQuantum].map fun s => (cexSource.getItemQuantum s).data).flatten :=
  getpieces_truncated_boundary_length cexSource [cexWitnessQuantum]
    (by norm_num [cexSource, AudioData.fromArray])
    (by
      intro s hs
      simp only [List.mem_singleton] at hs
      subst hs
      norm_num [cexSource, cexWitnessQuantum, AudioData.fromArray, pyInt])
    (by simp)
